import Mathlib

/-!
Verification of the dataplex-catalog-transfer-tooling repository.

This file gives a shallow embedding, in Lean 4, of the parts of the
repository that the verified properties talk about:

* the resource-name formatters and parsers of
  `src/common/entities/entities.py` (classes `TagTemplate`, `EntryGroup`);
* task routing in `src/services/jobs/fetch_policies/transfer_controller.py`
  (`create_cloud_task`) together with
  `src/common/cloud_task/cloud_task_publisher.py`
  (`create_task_by_message_location`, `prepare_queues_for_locations`);
* the mapping worker `src/services/handlers/find_resource_names/handler.py`;
* the transfer worker `src/services/handlers/transfer_resources/handler.py`;
* the cleanup worker `src/services/handlers/clean_up/handler.py`;
* project deduplication in
  `src/services/jobs/fetch_projects/transfer_controller.py`
  (`merge_projects`);
* the enumeration worker `src/services/handlers/fetch_resources/handler.py`;
* the warehouse writer `src/common/big_query/big_query_adapter.py`
  (`write_to_table`).

External collaborators (catalog APIs, the queue service, the warehouse
client) are modelled as oracles passed in as arguments; the embedded
functions are the repository's own control flow over those oracles.
Python exceptions become `Option`/sum results, Python `re.match`-based
parsing becomes an explicit character-level parser with exactly the
semantics of the regular expressions in the source (in particular,
`re.match` anchors only at the start of the string: trailing input after
the match is accepted), and Python's binary64 floating-point arithmetic
in `prepare_queues_for_locations` is modelled by exact round-to-nearest,
ties-to-even rounding on rationals represented as numerator/denominator
pairs.
-/

namespace CatalogTransfer

/-! ## Character-level parsing primitives

`entities.py` parses resource names with `re.match` against patterns built
from the pieces `projects/([^/]+)/`, `locations/([^/]+)/`,
`(?:tagTemplates|aspectTypes)/` or `entryGroups/`, and a final `([^/]+)`.
Because every capturing group is `[^/]+` followed either by a literal `/`
or by the end of the pattern, the regex engine's behaviour is exactly:
take the maximal run of non-`'/'` characters (which must be non-empty),
then require the literal that follows.  `re.match` succeeds as soon as
the whole pattern is consumed, leaving any remaining input unread.
-/

/-- The maximal run of non-`'/'` characters at the front of the list,
paired with the remaining input (which is empty or starts with `'/'`).
This is the behaviour of the regex piece `[^/]*`. -/
def spanNonSlash : List Char → List Char × List Char
  | [] => ([], [])
  | c :: cs =>
    if c = '/' then ([], c :: cs)
    else
      let r := spanNonSlash cs
      (c :: r.1, r.2)

/-- Consume the literal `lit` at the front of the input, returning the
remaining input; `none` when the input does not start with `lit`. -/
def dropLit : List Char → List Char → Option (List Char)
  | [], rest => some rest
  | _ :: _, [] => none
  | c :: cs, d :: ds => if c = d then dropLit cs ds else none

/-- The regex piece `([^/]+)/`: a non-empty run of non-`'/'` characters
followed by a consumed `'/'`. -/
def component (cs : List Char) : Option (List Char × List Char) :=
  match spanNonSlash cs with
  | ([], _) => none
  | (a, '/' :: rest) => some (a, rest)
  | (_, _) => none

/-- The final regex piece `([^/]+)` at the end of the pattern: a
non-empty run of non-`'/'` characters; anything after it is left
unread, exactly as `re.match` leaves trailing input unread. -/
def finalComponent (cs : List Char) : Option (List Char) :=
  match spanNonSlash cs with
  | ([], _) => none
  | (a, _) => some a

/-- The regex alternation over resource-kind literals, e.g.
`(?:tagTemplates|aspectTypes)/`: try each literal in order. -/
def dropKind : List (List Char) → List Char → Option (List Char)
  | [], _ => none
  | k :: ks, cs =>
    match dropLit k cs with
    | some r => some r
    | none => dropKind ks cs

/-- The common shape of both parsers in `entities.py`:
`projects/([^/]+)/locations/([^/]+)/(kind1|kind2)/([^/]+)` matched at
the start of the string, returning the three captured groups. -/
def parseResourceName (kinds : List (List Char)) (s : List Char) :
    Option (List Char × List Char × List Char) := do
  let r1 ← dropLit "projects/".data s
  let (p, r2) ← component r1
  let r3 ← dropLit "locations/".data r2
  let (l, r4) ← component r3
  let r5 ← dropKind kinds r4
  let i ← finalComponent r5
  pure (p, l, i)

/-- A string usable as one path component of a resource name: non-empty
and slash-free, i.e. exactly what the regex piece `[^/]+` can capture. -/
def componentOk (s : String) : Prop :=
  s.data ≠ [] ∧ ∀ c ∈ s.data, c ≠ '/'

instance (s : String) : Decidable (componentOk s) := by
  unfold componentOk; infer_instance

/-! ## `TagTemplate` and `EntryGroup` name formatters and parsers
(`src/common/entities/entities.py`) -/

namespace TagTemplate

/-- `TagTemplate.get_old_fqn`: the legacy fully qualified name
`projects/{p}/locations/{l}/tagTemplates/{name}`. -/
def get_old_fqn (project_id location name : String) : String :=
  "projects/" ++ project_id ++ "/locations/" ++ location ++
    "/tagTemplates/" ++ name

/-- `TagTemplate.get_new_fqn`: the target fully qualified name.  The
source discards its second (location) parameter and always uses
`global`. -/
def get_new_fqn (project_id : String) (_ : String) (name : String) : String :=
  "projects/" ++ project_id ++ "/locations/global/aspectTypes/" ++ name

/-- `TagTemplate.parse_tag_template_resource`: `re.match` of
`projects/([^/]+)/locations/([^/]+)/(?:tagTemplates|aspectTypes)/([^/]+)`;
`none` models the raised `FormatException`. -/
def parse_tag_template_resource (s : String) :
    Option (String × String × String) :=
  (parseResourceName ["tagTemplates/".data, "aspectTypes/".data] s.data).map
    (fun r => (⟨r.1⟩, ⟨r.2.1⟩, ⟨r.2.2⟩))

end TagTemplate

namespace EntryGroup

/-- `EntryGroup.get_old_fqn`:
`projects/{p}/locations/{l}/entryGroups/{name}`. -/
def get_old_fqn (project_id location name : String) : String :=
  "projects/" ++ project_id ++ "/locations/" ++ location ++
    "/entryGroups/" ++ name

/-- `EntryGroup.get_new_fqn`: identical shape to the legacy name. -/
def get_new_fqn (project_id location name : String) : String :=
  "projects/" ++ project_id ++ "/locations/" ++ location ++
    "/entryGroups/" ++ name

/-- `EntryGroup.parse_entry_group_resource`: `re.match` of
`projects/([^/]+)/locations/([^/]+)/entryGroups/([^/]+)`; `none` models
the raised `FormatException`. -/
def parse_entry_group_resource (s : String) :
    Option (String × String × String) :=
  (parseResourceName ["entryGroups/".data] s.data).map
    (fun r => (⟨r.1⟩, ⟨r.2.1⟩, ⟨r.2.2⟩))

end EntryGroup

/-- The exact set of strings `parse_tag_template_resource` accepts,
with the components it extracts: the string begins with
`projects/{p}/locations/{l}/tagTemplates/{i}` or
`projects/{p}/locations/{l}/aspectTypes/{i}` where each component is
non-empty and slash-free, `i` is the maximal slash-free run at its
position, and anything after `i` (empty, or starting with `/`) is left
unread — the semantics of `re.match` without an end anchor. -/
def tagTemplateNameShape (s p l i : String) : Prop :=
  componentOk p ∧ componentOk l ∧ componentOk i ∧
  ∃ rest : List Char,
    (rest = [] ∨ ∃ t, rest = '/' :: t) ∧
    (s.data = "projects/".data ++ (p.data ++ '/' :: ("locations/".data ++
        (l.data ++ '/' :: ("tagTemplates/".data ++ (i.data ++ rest))))) ∨
     s.data = "projects/".data ++ (p.data ++ '/' :: ("locations/".data ++
        (l.data ++ '/' :: ("aspectTypes/".data ++ (i.data ++ rest))))))

/-- The exact set of strings `parse_entry_group_resource` accepts, with
the components it extracts; as for tag templates but with the single
kind `entryGroups`. -/
def entryGroupNameShape (s p l i : String) : Prop :=
  componentOk p ∧ componentOk l ∧ componentOk i ∧
  ∃ rest : List Char,
    (rest = [] ∨ ∃ t, rest = '/' :: t) ∧
    s.data = "projects/".data ++ (p.data ++ '/' :: ("locations/".data ++
      (l.data ++ '/' :: ("entryGroups/".data ++ (i.data ++ rest)))))

/-! ## Worker HTTP responses

Every worker returns a pair `({"message": ...}, status)`; we keep the
message string and the numeric status. -/

/-- A worker's HTTP outcome: the `message` body and the status code. -/
structure WorkerResponse where
  message : String
  status : Nat
  deriving DecidableEq, Repr

/-! ## FetchPolicies task routing
(`src/services/jobs/fetch_policies/transfer_controller.py` and
`src/common/cloud_task/cloud_task_publisher.py`)

Only the queue selection matters for the routing property, so the
embedding computes the name of the queue a payload is enqueued on.
The payload mirrors `FetchPoliciesTaskData` from
`src/common/entities/request_models.py` (the `created_at` date plays no
role in routing and is omitted). -/

/-- The `resource` object inside a `FetchPoliciesTaskData` payload. -/
structure PolicyResource where
  resource_name : String
  location : String
  project_id : String
  system : String
  deriving DecidableEq, Repr

/-- A `FetchPoliciesTaskData` payload as the controller builds it:
`resource_type` is `type(resource).__name__`, i.e. `"EntryGroup"` or
`"TagTemplate"`. -/
structure PolicyTaskData where
  resource_type : String
  resource : PolicyResource
  deriving DecidableEq, Repr

/-- `CloudTaskPublisher.create_task_by_message_location`: the task goes
to the subqueue named `self.queue_name + "-" + message_location`. -/
def create_task_by_message_location_queue
    (base message_location : String) : String :=
  base ++ "-" ++ message_location

/-- `TransferController.create_cloud_task` (FetchPolicies): for a
DATAPLEX resource it overrides `msg_location` with `us-central1` when
the payload's `resource_type` is `TagTemplate` and calls
`create_task_by_message_location`; otherwise it calls `create_task`,
which targets the base queue.  Returns the queue the task lands on. -/
def create_cloud_task_queue
    (base : String) (payload : PolicyTaskData) (msg_location : String) :
    String :=
  if payload.resource.system = "DATAPLEX" then
    let m :=
      if payload.resource_type = "TagTemplate" then "us-central1"
      else msg_location
    create_task_by_message_location_queue base m
  else base

/-- `TransferController.create_cloud_tasks` submits every task with
`msg_location := resource.location`, the payload's own location. -/
def submit_policy_task_queue (base : String) (payload : PolicyTaskData) :
    String :=
  create_cloud_task_queue base payload payload.resource.location

/-! ## MapIdentifiers worker
(`src/services/handlers/find_resource_names/handler.py`)

The Dataplex lookups `get_entry_group` / `get_aspect_type` return the
resource or `None` (on 404).  The worker only inspects whether the
result is non-`None` and whether its `transfer_status` field
(`"transferStatus"` key for aspect types) is non-null, so a lookup
oracle maps an fqn to `none` (absent) or `some b` with `b` recording a
non-null transfer status. -/

/-- A looked-up Dataplex resource; `transfer_status_set` is whether its
`transfer_status` / `"transferStatus"` field is present and non-null. -/
structure DataplexLookup where
  transfer_status_set : Bool
  deriving DecidableEq, Repr

/-- The test both finders apply to a lookup result:
`x is not None and x.transfer_status is not None` (entry groups), or
`x is not None and "transferStatus" in x` (aspect types). -/
def lookupConfirmed (lookup : String → Option DataplexLookup)
    (fqn : String) : Bool :=
  match lookup fqn with
  | some r => r.transfer_status_set
  | none => false

/-- `CloudTaskHandler.find_new_entry_group_name`: probe the
identity-preserving target name, then `<id>_<location>`; return the
first confirmed candidate, else `none`. -/
def find_new_entry_group_name (lookup : String → Option DataplexLookup)
    (project_id resource_name location : String) : Option String :=
  let fqn := EntryGroup.get_new_fqn project_id location resource_name
  if lookupConfirmed lookup fqn then some fqn
  else
    let new_name := resource_name ++ "_" ++ location
    let fqn2 := EntryGroup.get_new_fqn project_id location new_name
    if lookupConfirmed lookup fqn2 then some fqn2 else none

/-- `CloudTaskHandler.find_new_tag_template_name`: same probing with
aspect-type names (`get_new_fqn` places them under `locations/global`). -/
def find_new_tag_template_name (lookup : String → Option DataplexLookup)
    (project_id resource_name location : String) : Option String :=
  let fqn := TagTemplate.get_new_fqn project_id location resource_name
  if lookupConfirmed lookup fqn then some fqn
  else
    let new_name := resource_name ++ "_" ++ location
    let fqn2 := TagTemplate.get_new_fqn project_id location new_name
    if lookupConfirmed lookup fqn2 then some fqn2 else none

/-- The `resource` object of a `FindResourceNamesTaskData` /
`ResourceTaskData` payload (`request_models.py`). -/
structure ResourceData where
  project_id : String
  location : String
  resource_name : String
  deriving DecidableEq, Repr

/-- A `ResourceTaskData` payload: `resource_type` is `"EntryGroup"` or
`"TagTemplate"` plus the resource triple. -/
structure ResourceTaskData where
  resource_type : String
  resource : ResourceData
  deriving DecidableEq, Repr

/-- What a run of the mapping worker did: the mapping rows written
(table name, `dataCatalogResourceName`, `dataplexResourceName`) and the
HTTP response. -/
structure FindNamesResult where
  writes : List (String × String × String)
  response : WorkerResponse
  deriving DecidableEq, Repr

/-- `CloudTaskHandler.handle_cloud_task` of the find-resource-names
worker, with the two Dataplex lookups passed as oracles
(`getEG` for `get_entry_group`, `getAT` for `get_aspect_type`). -/
def find_resource_names_handle
    (getEG getAT : String → Option DataplexLookup)
    (task : ResourceTaskData) : FindNamesResult :=
  let pid := task.resource.project_id
  let loc := task.resource.location
  let name := task.resource.resource_name
  if task.resource_type = "EntryGroup" then
    let old_fqn := EntryGroup.get_old_fqn pid loc name
    match find_new_entry_group_name getEG pid name loc with
    | none => ⟨[], ⟨"Resource not found", 200⟩⟩
    | some dataplex_name =>
        ⟨[("entry_groups_resource_mapping", old_fqn, dataplex_name)],
          ⟨"Task processed", 200⟩⟩
  else if task.resource_type = "TagTemplate" then
    let old_fqn := TagTemplate.get_old_fqn pid loc name
    match find_new_tag_template_name getAT pid name loc with
    | none => ⟨[], ⟨"Resource not found", 200⟩⟩
    | some dataplex_name =>
        ⟨[("tag_templates_resource_mapping", old_fqn, dataplex_name)],
          ⟨"Task processed", 200⟩⟩
  else ⟨[], ⟨"Invalid resource type: " ++ task.resource_type, 400⟩⟩

/-! ## TransferResources worker
(`src/services/handlers/transfer_resources/handler.py`)

`transfer_entry_group` / `transfer_tag_template` return either the API
response or the caught exception; the handler dispatches on
`isinstance`. -/

/-- Result of the upstream transfer call, as the handler distinguishes
it: a non-`Exception` response, `PermissionDenied`, `InvalidArgument`,
or any other error. -/
inductive TransferCallResult where
  | success
  | permissionDenied
  | invalidArgument
  | otherError (description : String)
  deriving DecidableEq, Repr

/-- The response mapping at the end of
`transfer_resources.handle_cloud_task`. -/
def transfer_outcome (fqn : String) : TransferCallResult → WorkerResponse
  | .success => ⟨"Task processed", 200⟩
  | .permissionDenied => ⟨"Resource " ++ fqn ++ " not found", 200⟩
  | .invalidArgument => ⟨"Resource " ++ fqn ++ " already transferred", 200⟩
  | .otherError d => ⟨"Error occurred " ++ d, 500⟩

/-- `transfer_resources.CloudTaskHandler.handle_cloud_task`, with the
two transfer calls as oracles; `Except.error` models the raised
`IncorrectTypeException` on an unknown `resource_type`. -/
def transfer_resources_handle
    (transferEG transferTT : String → TransferCallResult)
    (task : ResourceTaskData) : Except String WorkerResponse :=
  let pid := task.resource.project_id
  let loc := task.resource.location
  let name := task.resource.resource_name
  if task.resource_type = "EntryGroup" then
    let fqn := EntryGroup.get_old_fqn pid loc name
    .ok (transfer_outcome fqn (transferEG fqn))
  else if task.resource_type = "TagTemplate" then
    let fqn := TagTemplate.get_old_fqn pid loc name
    .ok (transfer_outcome fqn (transferTT fqn))
  else .error ("Unknown resource type: " ++ task.resource_type)

/-! ## CleanupLegacy worker
(`src/services/handlers/clean_up/handler.py`)

The worker re-reads the legacy resource (`get_entry_group` /
`get_tag_template`), checks its transferred flag
(`transferred_to_dataplex` for entry groups,
`dataplex_transfer_status == TRANSFERRED` for tag templates), and if
set attempts a forced delete.  `PermissionDenied` from the re-read or
the delete is caught by the surrounding `try`; any other exception
escapes the worker. -/

/-- Result of the legacy re-read: `PermissionDenied`, or the resource
with its transferred flag. -/
inductive CleanupGetResult where
  | permissionDenied
  | found (transferred : Bool)
  deriving DecidableEq, Repr

/-- Result of the forced delete: `PermissionDenied` or success. -/
inductive CleanupDeleteResult where
  | permissionDenied
  | deleted
  deriving DecidableEq, Repr

/-- What a run of the cleanup worker did: whether the delete call was
issued, and the HTTP response. -/
structure CleanupResult where
  delete_called : Bool
  response : WorkerResponse
  deriving DecidableEq, Repr

/-- An exception escaping the cleanup worker: the raised
`IncorrectTypeException` on an unknown resource type, or a Python
`TypeError` from a call whose argument list does not match the callee's
signature. -/
inductive CleanupFailure where
  | incorrectType (description : String)
  | typeError (description : String)
  deriving DecidableEq, Repr

/-- `clean_up.CloudTaskHandler.handle_cloud_task`, with the re-read and
the delete as oracle values for the task's resource.

For a transferred entry group the source executes
`delete_entry_group(project_id, location, resource_name, True)`, but
`DatacatalogApiAdapter.delete_entry_group` accepts only
`(project, location, name)` — it has no `force` parameter (the
tag-template adapter method does).  Python raises `TypeError` at the
call, before any delete is issued, and the surrounding
`except PermissionDenied` does not catch it, so the exception escapes
the worker. -/
def clean_up_handle (readBack : CleanupGetResult)
    (deleteCall : CleanupDeleteResult) (task : ResourceTaskData) :
    Except CleanupFailure CleanupResult :=
  let pid := task.resource.project_id
  let loc := task.resource.location
  let name := task.resource.resource_name
  if task.resource_type = "EntryGroup" then
    let fqn := EntryGroup.get_old_fqn pid loc name
    match readBack with
    | .permissionDenied =>
        .ok ⟨false, ⟨"Resource " ++ fqn ++ " not found", 200⟩⟩
    | .found false =>
        .ok ⟨false, ⟨"Entry group " ++ fqn ++ " not transferred", 200⟩⟩
    | .found true =>
        .error (.typeError
          "delete_entry_group() takes 4 positional arguments but 5 were given")
  else if task.resource_type = "TagTemplate" then
    let fqn := TagTemplate.get_old_fqn pid loc name
    match readBack with
    | .permissionDenied =>
        .ok ⟨false, ⟨"Resource " ++ fqn ++ " not found", 200⟩⟩
    | .found false =>
        .ok ⟨false, ⟨"Tag template " ++ fqn ++ " not transferred", 200⟩⟩
    | .found true =>
        match deleteCall with
        | .permissionDenied =>
            .ok ⟨true, ⟨"Resource " ++ fqn ++ " not found", 200⟩⟩
        | .deleted => .ok ⟨true, ⟨"Task processed", 200⟩⟩
  else .error (.incorrectType ("Unknown resource type: " ++
    task.resource_type))

/-! ## DiscoverProjects deduplication
(`src/services/jobs/fetch_projects/transfer_controller.py`,
`merge_projects`)

`merge_projects` folds the discovered projects into a dict keyed by
`project_id` (Python dicts preserve insertion order); a repeated id ORs
the two api-enabled booleans into the stored record.  An insertion-
ordered association list plays the dict's role. -/

/-- A discovered `Project` (`src/common/entities/entities.py`); the
fields `merge_projects` reads and writes, plus the carried-along
identity fields. -/
structure Project where
  project_id : String
  project_number : String
  data_catalog_api_enabled : Bool
  dataplex_api_enabled : Bool
  ancestry : List (String × String)
  deriving DecidableEq, Repr

/-- One iteration of the `merge_projects` loop: a new id is appended;
a repeated id ORs the incoming flags into the stored record
(`project.flag or name2projects[id].flag`). -/
def mergeStep (acc : List Project) (p : Project) : List Project :=
  if acc.any (fun q => q.project_id = p.project_id) then
    acc.map (fun q =>
      if q.project_id = p.project_id then
        { q with
          dataplex_api_enabled :=
            p.dataplex_api_enabled || q.dataplex_api_enabled
          data_catalog_api_enabled :=
            p.data_catalog_api_enabled || q.data_catalog_api_enabled }
      else q)
  else acc ++ [p]

/-- `TransferController.merge_projects`. -/
def merge_projects (projects : List Project) : List Project :=
  projects.foldl mergeStep []

/-! ## EnumerateResources worker
(`src/services/handlers/fetch_resources/handler.py`)

The catalog searches return one page of results plus a
`next_page_token` protobuf string, empty when there are no more pages.
The row type of the results is irrelevant to the control flow and is a
type parameter. -/

/-- A `FetchResourcesTaskData` payload (`request_models.py`); the
`created_at` date is opaque to the worker and modelled as a `Nat`. -/
structure FetchTaskData where
  scope : String
  resource_type : String
  next_page_token : Option String
  is_transferred : Bool
  created_at : Nat
  is_public : Option Bool
  deriving DecidableEq, Repr

/-- What a run of the enumeration worker did: rows written per table
and the successor payloads enqueued. -/
structure FetchEffects (α : Type) where
  writes : List (String × List α)
  enqueued : List FetchTaskData
  deriving DecidableEq, Repr

/-- `fetch_resources.CloudTaskHandler.handle_cloud_task`, with the two
catalog searches as oracles.  `searchEG scope transferred token` models
`search_entry_groups([scope], transferred, page_token=token)`;
`searchTT` additionally takes `is_public`.  Both return the page and
the (possibly empty) continuation token. -/
def fetch_resources_handle {α : Type}
    (searchEG : String → Bool → Option String → List α × String)
    (searchTT : String → Option Bool → Bool → Option String → List α × String)
    (task : FetchTaskData) : FetchEffects α × WorkerResponse :=
  let (api_result, next_page_token) :=
    if task.resource_type = "entry_group" then
      let r := searchEG task.scope task.is_transferred task.next_page_token
      (some r.1, r.2)
    else if task.resource_type = "tag_template" then
      let r := searchTT task.scope task.is_public task.is_transferred
        task.next_page_token
      (some r.1, r.2)
    else (none, "")
  let table_name :=
    if task.resource_type = "entry_group" then "entry_groups_table"
    else "tag_templates_table"
  let writes :=
    match api_result with
    | some rows => if rows.isEmpty then [] else [(table_name, rows)]
    | none => []
  let enqueued :=
    if next_page_token ≠ "" then
      [{ task with next_page_token := some next_page_token }]
    else []
  (⟨writes, enqueued⟩, ⟨"Task processed", 200⟩)

/-! ## Region queue preparation
(`src/common/cloud_task/cloud_task_publisher.py`,
`prepare_queues_for_locations`)

The source computes the new queue's rate limit as
`ceil(quota * (quota_consumption / 100))` in Python, i.e. in binary64
floating point: `quota_consumption / 100` is rounded to the nearest
double, the product with `quota` is rounded again, and `math.ceil` of
the resulting double is exact.  The embedding reproduces binary64
round-to-nearest, ties-to-even exactly on nonnegative rationals kept as
numerator/denominator pairs (the quantities here are far from the
overflow and subnormal ranges, so exponent bounds play no role). -/

/-- Normalize a positive rational `n / d` to `m / d' * 2 ^ e` with
`2 ^ 52 ≤ m / d' < 2 ^ 53`, by fueled doubling/halving.  The fuel 4200
covers every exponent a finite double can have. -/
def floatScale : Nat → Nat → Nat → Int → Nat × Nat × Int
  | 0, n, d, e => (n, d, e)
  | fuel + 1, n, d, e =>
    if n < 2 ^ 52 * d then floatScale fuel (2 * n) d (e - 1)
    else if 2 ^ 53 * d ≤ n then floatScale fuel n (2 * d) (e + 1)
    else (n, d, e)

/-- Round the rational `n / d` to the nearest integer, ties to even. -/
def roundHalfEven (n d : Nat) : Nat :=
  let q := n / d
  let r := n % d
  if 2 * r < d then q
  else if d < 2 * r then q + 1
  else if q % 2 = 0 then q else q + 1

/-- Binary64 rounding of the nonnegative rational `n / d`: the mantissa
and binary exponent of the nearest double (ties to even). -/
def roundFloat (n d : Nat) : Nat × Int :=
  if n = 0 then (0, 0)
  else
    let (n', d', e) := floatScale 4200 n d 0
    (roundHalfEven n' d', e)

/-- Exact `math.ceil` of the double `m * 2 ^ e`. -/
def ceilFloat (m : Nat) (e : Int) : Nat :=
  if 0 ≤ e then m * 2 ^ e.toNat
  else (m + 2 ^ (-e).toNat - 1) / 2 ^ (-e).toNat

/-- The Python expression `ceil(quota * (quota_consumption / 100))` as
evaluated in binary64 arithmetic (for `quota < 2 ^ 53`, whose float
conversion is exact). -/
def queue_max_rps (quota quota_consumption : Nat) : Nat :=
  let w := roundFloat quota_consumption 100
  let p :=
    if 0 ≤ w.2 then roundFloat (quota * w.1 * 2 ^ w.2.toNat) 1
    else roundFloat (quota * w.1) (2 ^ (-w.2).toNat)
  ceilFloat p.1 p.2

/-- The queue service's visible state: which queues exist and their
`max_dispatches_per_second`. -/
abbrev QueueState := List (String × Nat)

/-- `check_queue_exists` against the modelled state. -/
def lookupQueue (st : QueueState) (name : String) : Option Nat :=
  (st.find? (fun e => e.1 = name)).map (·.2)

/-- The queue operations `prepare_queues_for_locations` issues. -/
inductive QueueAction where
  | purgeQueue (name : String)
  | createQueue (name : String) (max_rps : Nat)
  deriving DecidableEq, Repr

/-- One iteration of the `prepare_queues_for_locations` loop for
`msg_location`: purge the subqueue if it exists (purging drops tasks
but leaves the rate limit in place), else create it with the computed
rate. -/
def prepareStep (base : String) (quota quota_consumption : Nat)
    (st : QueueState) (msg_location : String) : QueueState × QueueAction :=
  let new_queue_name := base ++ "-" ++ msg_location
  if (lookupQueue st new_queue_name).isSome then
    (st, .purgeQueue new_queue_name)
  else
    let rps := queue_max_rps quota quota_consumption
    (st ++ [(new_queue_name, rps)], .createQueue new_queue_name rps)

/-- `CloudTaskPublisher.prepare_queues_for_locations`: iterate
`prepareStep` over the message locations, collecting the resulting
state and the actions issued in order. -/
def prepare_queues_for_locations (base : String)
    (quota quota_consumption : Nat) (st : QueueState)
    (msg_locations : List String) : QueueState × List QueueAction :=
  msg_locations.foldl
    (fun acc loc =>
      let r := prepareStep base quota quota_consumption acc.1 loc
      (r.1, acc.2 ++ [r.2]))
    (st, [])

/-! ## Warehouse row writer
(`src/common/big_query/big_query_adapter.py`, `write_to_table`)

The retry loop calls `insert_rows` up to `retry_count` times; an
attempt either returns a (possibly non-empty) list of per-row errors —
which is logged, and the function returns — or raises `NotFound`, which
is retried; exhausting the retries raises
`BigQueryDataRetrievalError`.  The `except NotFound` clause catches
nothing else: any other exception from an attempt escapes the loop at
once, and the `google_api_exception_shield` decorator re-raises a
`GoogleAPICallError` as `BigQueryExecutionError`.  (The
`create_table_if_not_exists` call preceding the loop can also fail; it
is an external call outside this oracle and shielded the same way.) -/

/-- Outcome of one `insert_rows` attempt: a (possibly non-empty)
per-row error list, a raised `NotFound`, or any other raised error,
carried with its description. -/
inductive InsertOutcome where
  | ok (errors : List String)
  | notFound
  | raised (description : String)
  deriving DecidableEq, Repr

/-- Outcome of `write_to_table`: a normal return carrying the per-row
errors of the successful attempt (the row-error list is only logged),
the `BigQueryDataRetrievalError` raised after the retries, or a
non-`NotFound` attempt error propagating out of the loop as the
shield's `BigQueryExecutionError`. -/
inductive WriteResult where
  | returned (errors : List String)
  | dataRetrievalError
  | executionError (description : String)
  deriving DecidableEq, Repr

/-- The `while retries > 0` loop of `write_to_table`; `insert i` is the
outcome of the `i`-th `insert_rows` attempt. -/
def write_to_table_loop (insert : Nat → InsertOutcome) :
    Nat → Nat → WriteResult
  | _, 0 => .dataRetrievalError
  | attempt, retries + 1 =>
    match insert attempt with
    | .ok errs => .returned errs
    | .notFound => write_to_table_loop insert (attempt + 1) retries
    | .raised d => .executionError d

/-- `BigQueryAdapter.write_to_table` with the insert attempts as an
oracle and the configured `retry_count` (default 5). -/
def write_to_table (insert : Nat → InsertOutcome) (retry_count : Nat) :
    WriteResult :=
  write_to_table_loop insert 0 retry_count

/-! ## Lemmas about the parsing primitives -/

theorem dropLit_self_append (l r : List Char) : dropLit l (l ++ r) = some r := by
  induction l with
  | nil => rfl
  | cons c cs ih => simp [dropLit, ih]

theorem dropLit_eq_some : ∀ {l cs r : List Char},
    dropLit l cs = some r → cs = l ++ r := by
  intro l
  induction l with
  | nil => intro cs r h; simpa [dropLit] using h
  | cons c cs' ih =>
    intro cs r h
    cases cs with
    | nil => simp [dropLit] at h
    | cons d ds =>
      by_cases hcd : c = d
      · subst hcd
        simp only [dropLit, if_pos rfl] at h
        simpa using ih h
      · simp [dropLit, hcd] at h

theorem spanNonSlash_spec (cs : List Char) :
    cs = (spanNonSlash cs).1 ++ (spanNonSlash cs).2 ∧
    (∀ c ∈ (spanNonSlash cs).1, c ≠ '/') ∧
    ((spanNonSlash cs).2 = [] ∨ ∃ t, (spanNonSlash cs).2 = '/' :: t) := by
  induction cs with
  | nil => exact ⟨rfl, by simp [spanNonSlash], Or.inl rfl⟩
  | cons c cs ih =>
    by_cases hc : c = '/'
    · subst hc
      refine ⟨rfl, by simp [spanNonSlash], Or.inr ⟨cs, by simp [spanNonSlash]⟩⟩
    · obtain ⟨h1, h2, h3⟩ := ih
      refine ⟨?_, ?_, ?_⟩
      · simpa [spanNonSlash, hc] using h1
      · intro d hd
        have hmem : d = c ∨ d ∈ (spanNonSlash cs).1 := by
          simpa [spanNonSlash, hc] using hd
        rcases hmem with rfl | hmem
        · exact hc
        · exact h2 d hmem
      · simpa [spanNonSlash, hc] using h3

theorem spanNonSlash_no_slash : ∀ {a : List Char},
    (∀ c ∈ a, c ≠ '/') → spanNonSlash a = (a, []) := by
  intro a
  induction a with
  | nil => intro _; rfl
  | cons c cs ih =>
    intro h
    have hc : c ≠ '/' := h c (by simp)
    have := ih (fun d hd => h d (by simp [hd]))
    simp [spanNonSlash, hc, this]

theorem spanNonSlash_append_slash : ∀ {a : List Char} (t : List Char),
    (∀ c ∈ a, c ≠ '/') → spanNonSlash (a ++ '/' :: t) = (a, '/' :: t) := by
  intro a
  induction a with
  | nil => intro t _; simp [spanNonSlash]
  | cons c cs ih =>
    intro t h
    have hc : c ≠ '/' := h c (by simp)
    have := ih t (fun d hd => h d (by simp [hd]))
    simp [spanNonSlash, hc, this]

theorem component_append {a : List Char} (t : List Char) (ha : a ≠ [])
    (h : ∀ c ∈ a, c ≠ '/') : component (a ++ '/' :: t) = some (a, t) := by
  unfold component
  rw [spanNonSlash_append_slash t h]
  cases a with
  | nil => exact absurd rfl ha
  | cons c cs => rfl

theorem component_eq_some {cs a r : List Char}
    (h : component cs = some (a, r)) :
    cs = a ++ '/' :: r ∧ a ≠ [] ∧ ∀ c ∈ a, c ≠ '/' := by
  obtain ⟨h1, h2, h3⟩ := spanNonSlash_spec cs
  unfold component at h
  rcases hspan : spanNonSlash cs with ⟨s1, s2⟩
  rw [hspan] at h h1 h2 h3
  cases s1 with
  | nil => simp at h
  | cons c cs' =>
    rcases h3 with h3 | ⟨t, h3⟩
    · subst h3; simp at h
    · subst h3
      simp only [Option.some.injEq, Prod.mk.injEq] at h
      obtain ⟨ha, hr⟩ := h
      subst ha; subst hr
      exact ⟨h1, by simp, h2⟩

theorem finalComponent_append {a : List Char} (rest : List Char) (ha : a ≠ [])
    (h : ∀ c ∈ a, c ≠ '/') (hrest : rest = [] ∨ ∃ t, rest = '/' :: t) :
    finalComponent (a ++ rest) = some a := by
  unfold finalComponent
  rcases hrest with h0 | ⟨t, h0⟩ <;> subst h0
  · rw [List.append_nil, spanNonSlash_no_slash h]
    cases a with
    | nil => exact absurd rfl ha
    | cons c cs => rfl
  · rw [spanNonSlash_append_slash t h]
    cases a with
    | nil => exact absurd rfl ha
    | cons c cs => rfl

theorem finalComponent_eq_some {cs a : List Char}
    (h : finalComponent cs = some a) :
    ∃ rest, cs = a ++ rest ∧ a ≠ [] ∧ (∀ c ∈ a, c ≠ '/') ∧
      (rest = [] ∨ ∃ t, rest = '/' :: t) := by
  obtain ⟨h1, h2, h3⟩ := spanNonSlash_spec cs
  unfold finalComponent at h
  rcases hspan : spanNonSlash cs with ⟨s1, s2⟩
  rw [hspan] at h h1 h2 h3
  cases s1 with
  | nil => simp at h
  | cons c cs' =>
    simp only [Option.some.injEq] at h
    subst h
    exact ⟨s2, h1, by simp, h2, h3⟩

theorem dropKind_head {k : List Char} (ks : List (List Char))
    {cs r : List Char} (h : dropLit k cs = some r) :
    dropKind (k :: ks) cs = some r := by
  simp [dropKind, h]

theorem dropKind_tail {k : List Char} (ks : List (List Char))
    {cs : List Char} (h : dropLit k cs = none) :
    dropKind (k :: ks) cs = dropKind ks cs := by
  simp [dropKind, h]

theorem dropKind_eq_some : ∀ {ks : List (List Char)} {cs r : List Char},
    dropKind ks cs = some r → ∃ k ∈ ks, cs = k ++ r := by
  intro ks
  induction ks with
  | nil => intro cs r h; simp [dropKind] at h
  | cons k ks' ih =>
    intro cs r h
    unfold dropKind at h
    rcases hk : dropLit k cs with _ | r'
    · rw [hk] at h
      obtain ⟨k', hk', hcs⟩ := ih h
      exact ⟨k', by simp [hk'], hcs⟩
    · rw [hk] at h
      simp only [Option.some.injEq] at h
      subst h
      exact ⟨k, by simp, dropLit_eq_some hk⟩

theorem dropLit_cons_ne {c d : Char} (cs ds : List Char) (h : c ≠ d) :
    dropLit (c :: cs) (d :: ds) = none := by
  simp [dropLit, h]

theorem dropLit_tagTemplates_aspectTypes (x : List Char) :
    dropLit "tagTemplates/".data ("aspectTypes/".data ++ x) = none := by
  show dropLit ('t' :: "agTemplates/".data) ('a' :: ("spectTypes/".data ++ x)) = none
  exact dropLit_cons_ne _ _ (by decide)

/-- The generic round-trip: parsing a well-formed concatenation built
from slash-free non-empty components recovers exactly the components,
for any kind literal the alternation accepts. -/
theorem parseResourceName_append (kinds : List (List Char))
    (kind p l i rest : List Char)
    (hkind : dropKind kinds (kind ++ (i ++ rest)) = some (i ++ rest))
    (hp : p ≠ []) (hp' : ∀ c ∈ p, c ≠ '/')
    (hl : l ≠ []) (hl' : ∀ c ∈ l, c ≠ '/')
    (hi : i ≠ []) (hi' : ∀ c ∈ i, c ≠ '/')
    (hrest : rest = [] ∨ ∃ t, rest = '/' :: t) :
    parseResourceName kinds
      ("projects/".data ++ (p ++ '/' :: ("locations/".data ++
        (l ++ '/' :: (kind ++ (i ++ rest)))))) = some (p, l, i) := by
  unfold parseResourceName
  rw [dropLit_self_append]
  simp only [Option.bind_eq_bind, Option.some_bind]
  rw [component_append _ hp hp']
  simp only [Option.some_bind]
  rw [dropLit_self_append]
  simp only [Option.some_bind]
  rw [component_append _ hl hl']
  simp only [Option.some_bind]
  rw [hkind]
  simp only [Option.some_bind]
  rw [finalComponent_append rest hi hi' hrest]
  rfl

theorem parseResourceName_eq_some {kinds : List (List Char)}
    {cs pd ld idc : List Char}
    (h : parseResourceName kinds cs = some (pd, ld, idc)) :
    ∃ k ∈ kinds, ∃ rest : List Char,
      cs = "projects/".data ++ (pd ++ '/' :: ("locations/".data ++
        (ld ++ '/' :: (k ++ (idc ++ rest))))) ∧
      pd ≠ [] ∧ (∀ c ∈ pd, c ≠ '/') ∧
      ld ≠ [] ∧ (∀ c ∈ ld, c ≠ '/') ∧
      idc ≠ [] ∧ (∀ c ∈ idc, c ≠ '/') ∧
      (rest = [] ∨ ∃ t, rest = '/' :: t) := by
  simp only [parseResourceName, Option.bind_eq_bind, Option.bind_eq_some,
    Option.pure_def, Option.some.injEq] at h
  obtain ⟨r1, hr1, ⟨a, b⟩, hab, r3, hr3, ⟨c, d⟩, hcd, r5, hr5, i0, hi0, heq⟩
    := h
  obtain ⟨ha, hc2, hi2⟩ : a = pd ∧ c = ld ∧ i0 = idc := by
    simpa [Prod.ext_iff] using heq
  subst ha; subst hc2; subst hi2
  have e1 := dropLit_eq_some hr1
  obtain ⟨e2, hpd1, hpd2⟩ := component_eq_some hab
  have e3 := dropLit_eq_some hr3
  obtain ⟨e4, hld1, hld2⟩ := component_eq_some hcd
  obtain ⟨k, hk, e5⟩ := dropKind_eq_some hr5
  obtain ⟨rest, e6, hid1, hid2, hrest⟩ := finalComponent_eq_some hi0
  refine ⟨k, hk, rest, ?_, hpd1, hpd2, hld1, hld2, hid1, hid2, hrest⟩
  subst e6; subst e5; subst e4; subst e3; subst e2; subst e1
  rfl

/-- C9 counterexample: the claim says any string outside the documented
grammar — in particular one with extra trailing path segments, or a
target-shape name whose location is not `global` — raises
`FormatException`.  The parsers use `re.match`, which anchors only at
the start, and their pattern puts no constraint on the location of an
`aspectTypes` name, so both kinds of input parse successfully. -/
theorem claim_C9_counterexample :
    TagTemplate.parse_tag_template_resource
        "projects/p/locations/l/tagTemplates/t/extra" = some ("p", "l", "t") ∧
    TagTemplate.parse_tag_template_resource
        "projects/p/locations/us-west1/aspectTypes/t" =
      some ("p", "us-west1", "t") := by
  constructor
  · decide
  · decide

/-- C9 (amended): `parse_tag_template_resource` succeeds exactly on
strings that begin with `projects/{p}/locations/{l}/tagTemplates/{id}`
or `projects/{p}/locations/{l}/aspectTypes/{id}` (the aspect-type
location is not restricted to `global`), and
`parse_entry_group_resource` exactly on strings beginning with
`projects/{p}/locations/{l}/entryGroups/{id}`, where each component is
non-empty and slash-free, the id is the maximal slash-free run, and
arbitrary trailing input after the id (empty or starting with `/`) is
accepted; every other string raises `FormatException`. -/
theorem claim_C9 :
    (∀ s p l i : String,
      TagTemplate.parse_tag_template_resource s = some (p, l, i) ↔
        tagTemplateNameShape s p l i) ∧
    (∀ s p l i : String,
      EntryGroup.parse_entry_group_resource s = some (p, l, i) ↔
        entryGroupNameShape s p l i) := by
  constructor
  · intro s p l i
    constructor
    · intro h
      obtain ⟨⟨pd, ld, idc⟩, hres, hf⟩ := Option.map_eq_some'.mp h
      obtain ⟨hp, hl, hi⟩ : (⟨pd⟩ : String) = p ∧ (⟨ld⟩ : String) = l ∧
          (⟨idc⟩ : String) = i := by simpa [Prod.ext_iff] using hf
      subst hp; subst hl; subst hi
      obtain ⟨k, hk, rest, hcs, h1, h2, h3, h4, h5, h6, h7⟩ :=
        parseResourceName_eq_some hres
      have hk2 : k = "tagTemplates/".data ∨ k = "aspectTypes/".data := by
        simpa using hk
      refine ⟨⟨h1, h2⟩, ⟨h3, h4⟩, ⟨h5, h6⟩, rest, h7, ?_⟩
      rcases hk2 with rfl | rfl
      · exact Or.inl hcs
      · exact Or.inr hcs
    · rintro ⟨hp, hl, hi, rest, hrest, hcs | hcs⟩
      · unfold TagTemplate.parse_tag_template_resource
        rw [hcs, parseResourceName_append _ "tagTemplates/".data _ _ _ rest
          (dropKind_head _ (dropLit_self_append _ _))
          hp.1 hp.2 hl.1 hl.2 hi.1 hi.2 hrest]
        rfl
      · unfold TagTemplate.parse_tag_template_resource
        have hkind : dropKind ["tagTemplates/".data, "aspectTypes/".data]
            ("aspectTypes/".data ++ (i.data ++ rest)) =
              some (i.data ++ rest) := by
          rw [dropKind_tail _ (dropLit_tagTemplates_aspectTypes _)]
          exact dropKind_head _ (dropLit_self_append _ _)
        rw [hcs, parseResourceName_append _ "aspectTypes/".data _ _ _ rest
          hkind hp.1 hp.2 hl.1 hl.2 hi.1 hi.2 hrest]
        rfl
  · intro s p l i
    constructor
    · intro h
      obtain ⟨⟨pd, ld, idc⟩, hres, hf⟩ := Option.map_eq_some'.mp h
      obtain ⟨hp, hl, hi⟩ : (⟨pd⟩ : String) = p ∧ (⟨ld⟩ : String) = l ∧
          (⟨idc⟩ : String) = i := by simpa [Prod.ext_iff] using hf
      subst hp; subst hl; subst hi
      obtain ⟨k, hk, rest, hcs, h1, h2, h3, h4, h5, h6, h7⟩ :=
        parseResourceName_eq_some hres
      have hk2 : k = "entryGroups/".data := by simpa using hk
      subst hk2
      exact ⟨⟨h1, h2⟩, ⟨h3, h4⟩, ⟨h5, h6⟩, rest, h7, hcs⟩
    · rintro ⟨hp, hl, hi, rest, hrest, hcs⟩
      unfold EntryGroup.parse_entry_group_resource
      rw [hcs, parseResourceName_append _ "entryGroups/".data _ _ _ rest
        (dropKind_head _ (dropLit_self_append _ _))
        hp.1 hp.2 hl.1 hl.2 hi.1 hi.2 hrest]
      rfl

/-! ## Round-trip lemmas for the four formatters -/

theorem parse_tag_template_old_fqn (p l i : String) (hp : componentOk p)
    (hl : componentOk l) (hi : componentOk i) :
    TagTemplate.parse_tag_template_resource (TagTemplate.get_old_fqn p l i) =
      some (p, l, i) := by
  have e1 : ("/locations/" : String).data = '/' :: "locations/".data := rfl
  have e2 : ("/tagTemplates/" : String).data =
      '/' :: "tagTemplates/".data := rfl
  have h : (TagTemplate.get_old_fqn p l i).data =
      "projects/".data ++ (p.data ++ '/' :: ("locations/".data ++
        (l.data ++ '/' :: ("tagTemplates/".data ++ (i.data ++ []))))) := by
    show ("projects/" ++ p ++ "/locations/" ++ l ++ "/tagTemplates/" ++ i).data
      = _
    simp [String.data_append, e1, e2]
  unfold TagTemplate.parse_tag_template_resource
  rw [h, parseResourceName_append _ "tagTemplates/".data _ _ _ []
    (dropKind_head _ (dropLit_self_append _ _))
    hp.1 hp.2 hl.1 hl.2 hi.1 hi.2 (Or.inl rfl)]
  rfl

theorem parse_tag_template_new_fqn (p l i : String) (hp : componentOk p)
    (hi : componentOk i) :
    TagTemplate.parse_tag_template_resource (TagTemplate.get_new_fqn p l i) =
      some (p, "global", i) := by
  have e1 : ("/locations/global/aspectTypes/" : String).data =
      '/' :: ("locations/".data ++ ("global".data ++
        ('/' :: "aspectTypes/".data))) := rfl
  have h : (TagTemplate.get_new_fqn p l i).data =
      "projects/".data ++ (p.data ++ '/' :: ("locations/".data ++
        ("global".data ++ '/' :: ("aspectTypes/".data ++ (i.data ++ []))))) := by
    show ("projects/" ++ p ++ "/locations/global/aspectTypes/" ++ i).data = _
    simp [String.data_append, e1]
  have hkind : dropKind ["tagTemplates/".data, "aspectTypes/".data]
      ("aspectTypes/".data ++ (i.data ++ [])) = some (i.data ++ []) := by
    rw [dropKind_tail _ (dropLit_tagTemplates_aspectTypes _)]
    exact dropKind_head _ (dropLit_self_append _ _)
  unfold TagTemplate.parse_tag_template_resource
  rw [h, parseResourceName_append _ "aspectTypes/".data _ _ _ [] hkind
    hp.1 hp.2 (by decide) (by decide) hi.1 hi.2 (Or.inl rfl)]
  rfl

theorem parse_entry_group_old_fqn (p l i : String) (hp : componentOk p)
    (hl : componentOk l) (hi : componentOk i) :
    EntryGroup.parse_entry_group_resource (EntryGroup.get_old_fqn p l i) =
      some (p, l, i) := by
  have e1 : ("/locations/" : String).data = '/' :: "locations/".data := rfl
  have e2 : ("/entryGroups/" : String).data = '/' :: "entryGroups/".data := rfl
  have h : (EntryGroup.get_old_fqn p l i).data =
      "projects/".data ++ (p.data ++ '/' :: ("locations/".data ++
        (l.data ++ '/' :: ("entryGroups/".data ++ (i.data ++ []))))) := by
    show ("projects/" ++ p ++ "/locations/" ++ l ++ "/entryGroups/" ++ i).data
      = _
    simp [String.data_append, e1, e2]
  unfold EntryGroup.parse_entry_group_resource
  rw [h, parseResourceName_append _ "entryGroups/".data _ _ _ []
    (dropKind_head _ (dropLit_self_append _ _))
    hp.1 hp.2 hl.1 hl.2 hi.1 hi.2 (Or.inl rfl)]
  rfl

theorem parse_entry_group_new_fqn (p l i : String) (hp : componentOk p)
    (hl : componentOk l) (hi : componentOk i) :
    EntryGroup.parse_entry_group_resource (EntryGroup.get_new_fqn p l i) =
      some (p, l, i) :=
  parse_entry_group_old_fqn p l i hp hl hi

/-- C3 counterexample: the claim asserts the identical round-trip law
`parse ∘ format = id` also for `TagTemplate.get_new_fqn`, but that
formatter discards the location (aspect types always live under
`locations/global`), so parsing the formatted name returns `"global"`,
not the original location.  At `(p, l, id) = ("p", "us-west1", "t")`
the claimed equation fails. -/
theorem claim_C3_counterexample :
    TagTemplate.parse_tag_template_resource
        (TagTemplate.get_new_fqn "p" "us-west1" "t") =
      some ("p", "global", "t") ∧
    TagTemplate.parse_tag_template_resource
        (TagTemplate.get_new_fqn "p" "us-west1" "t") ≠
      some ("p", "us-west1", "t") := by
  constructor
  · decide
  · decide

/-- C3 (amended): for every triple of non-empty, slash-free components,
parsing the legacy fqn returns exactly the triple, for tag templates and
entry groups alike; the same law holds for `EntryGroup.get_new_fqn`,
while for `TagTemplate.get_new_fqn` the parsed location is `"global"`
(the formatter discards the location argument).  Non-emptiness is
forced: the regex pieces `[^/]+` do not match an empty component. -/
theorem claim_C3 (p l i : String) (hp : componentOk p) (hl : componentOk l)
    (hi : componentOk i) :
    TagTemplate.parse_tag_template_resource (TagTemplate.get_old_fqn p l i) =
      some (p, l, i) ∧
    EntryGroup.parse_entry_group_resource (EntryGroup.get_old_fqn p l i) =
      some (p, l, i) ∧
    EntryGroup.parse_entry_group_resource (EntryGroup.get_new_fqn p l i) =
      some (p, l, i) ∧
    TagTemplate.parse_tag_template_resource (TagTemplate.get_new_fqn p l i) =
      some (p, "global", i) :=
  ⟨parse_tag_template_old_fqn p l i hp hl hi,
   parse_entry_group_old_fqn p l i hp hl hi,
   parse_entry_group_new_fqn p l i hp hl hi,
   parse_tag_template_new_fqn p l i hp hi⟩

/-- C3 witness: the amended round-trip laws evaluated at the concrete
triple `("prj1", "us-west1", "tt1")`. -/
theorem claim_C3_witness :
    componentOk "prj1" ∧ componentOk "us-west1" ∧ componentOk "tt1" ∧
    (TagTemplate.parse_tag_template_resource
        (TagTemplate.get_old_fqn "prj1" "us-west1" "tt1") =
      some ("prj1", "us-west1", "tt1") ∧
    EntryGroup.parse_entry_group_resource
        (EntryGroup.get_old_fqn "prj1" "us-west1" "tt1") =
      some ("prj1", "us-west1", "tt1") ∧
    EntryGroup.parse_entry_group_resource
        (EntryGroup.get_new_fqn "prj1" "us-west1" "tt1") =
      some ("prj1", "us-west1", "tt1") ∧
    TagTemplate.parse_tag_template_resource
        (TagTemplate.get_new_fqn "prj1" "us-west1" "tt1") =
      some ("prj1", "global", "tt1")) :=
  ⟨by decide, by decide, by decide,
   claim_C3 "prj1" "us-west1" "tt1" (by decide) (by decide) (by decide)⟩

/-! ## FetchPolicies routing (C1) -/

/-- C1: a FetchPolicies task for a DATAPLEX tag template is enqueued on
the subqueue `<base>-us-central1`; for a DATAPLEX entry group on
`<base>-<resource.location>`; for a DATA_CATALOG resource on the base
queue with no region suffix. -/
theorem claim_C1 (base : String) (payload : PolicyTaskData) :
    (payload.resource.system = "DATAPLEX" →
      payload.resource_type = "TagTemplate" →
      submit_policy_task_queue base payload = base ++ "-us-central1") ∧
    (payload.resource.system = "DATAPLEX" →
      payload.resource_type = "EntryGroup" →
      submit_policy_task_queue base payload =
        base ++ "-" ++ payload.resource.location) ∧
    (payload.resource.system = "DATA_CATALOG" →
      submit_policy_task_queue base payload = base) := by
  refine ⟨?_, ?_, ?_⟩
  · intro hs ht
    simp [submit_policy_task_queue, create_cloud_task_queue,
      create_task_by_message_location_queue, hs, ht]
    rw [String.append_assoc]
    exact congrArg (fun x => base ++ x)
      (by decide : ("-" ++ "us-central1" : String) = "-us-central1")
  · intro hs ht
    simp [submit_policy_task_queue, create_cloud_task_queue,
      create_task_by_message_location_queue, hs, ht]
  · intro hs
    simp [submit_policy_task_queue, create_cloud_task_queue, hs]

/-- C1 witness: the three routing cases evaluated on concrete payloads
(Scenario D of the specification: the DATAPLEX tag-template task goes to
`<base>-us-central1`, the DATA_CATALOG one to the base queue). -/
theorem claim_C1_witness :
    submit_policy_task_queue "q" ⟨"TagTemplate", "tt1", "us-west1", "prj1",
        "DATAPLEX"⟩ = "q-us-central1" ∧
    submit_policy_task_queue "q" ⟨"EntryGroup", "eg1", "us-west1", "prj1",
        "DATAPLEX"⟩ = "q-us-west1" ∧
    submit_policy_task_queue "q" ⟨"TagTemplate", "tt1", "us-west1", "prj1",
        "DATA_CATALOG"⟩ = "q" := by
  refine ⟨?_, ?_, ?_⟩
  · exact (claim_C1 "q" _).1 rfl rfl
  · exact ((claim_C1 "q" _).2.1 rfl rfl).trans (by decide)
  · exact (claim_C1 "q" _).2.2 rfl

/-! ## MapIdentifiers worker (C2) -/

/-- C2: the mapping worker considers exactly the two candidate target
names, identity-preserving first and region-suffixed `<id>_<location>`
second; the first candidate confirmed by the lookup (resource present
with a non-null transfer status) wins, and exactly one mapping row
`(legacy fqn, winning fqn)` is written; if neither is confirmed nothing
is written and the worker answers HTTP 200 with a not-found message. -/
theorem claim_C2 (getEG getAT : String → Option DataplexLookup)
    (pid loc name rt : String)
    (h : rt = "EntryGroup" ∨ rt = "TagTemplate") :
    let lookup := if rt = "EntryGroup" then getEG else getAT
    let newFqn := fun n =>
      if rt = "EntryGroup" then EntryGroup.get_new_fqn pid loc n
      else TagTemplate.get_new_fqn pid loc n
    let oldFqn :=
      if rt = "EntryGroup" then EntryGroup.get_old_fqn pid loc name
      else TagTemplate.get_old_fqn pid loc name
    let table :=
      if rt = "EntryGroup" then "entry_groups_resource_mapping"
      else "tag_templates_resource_mapping"
    let winner := [newFqn name, newFqn (name ++ "_" ++ loc)].find?
      (fun f => lookupConfirmed lookup f)
    let res := find_resource_names_handle getEG getAT ⟨rt, pid, loc, name⟩
    match winner with
    | some w => res.writes = [(table, oldFqn, w)] ∧
        res.response = ⟨"Task processed", 200⟩
    | none => res.writes = [] ∧ res.response = ⟨"Resource not found", 200⟩ := by
  rcases h with rfl | rfl
  · by_cases h1 : lookupConfirmed getEG (EntryGroup.get_new_fqn pid loc name)
    · simp [find_resource_names_handle, find_new_entry_group_name,
        List.find?, h1]
    · by_cases h2 : lookupConfirmed getEG
        (EntryGroup.get_new_fqn pid loc (name ++ "_" ++ loc))
      · simp [find_resource_names_handle, find_new_entry_group_name,
          List.find?, h1, h2]
      · simp [find_resource_names_handle, find_new_entry_group_name,
          List.find?, h1, h2]
  · by_cases h1 : lookupConfirmed getAT (TagTemplate.get_new_fqn pid loc name)
    · simp [find_resource_names_handle, find_new_tag_template_name,
        List.find?, h1]
    · by_cases h2 : lookupConfirmed getAT
        (TagTemplate.get_new_fqn pid loc (name ++ "_" ++ loc))
      · simp [find_resource_names_handle, find_new_tag_template_name,
          List.find?, h1, h2]
      · simp [find_resource_names_handle, find_new_tag_template_name,
          List.find?, h1, h2]

/-- C2 witness: Scenario C of the specification — the first probe for
`(prj1, us-west1, eg1)` is absent, the second probe is present with a
non-null transfer status, so the written mapping pairs the legacy name
with the region-suffixed target name. -/
theorem claim_C2_witness :
    (find_resource_names_handle
      (fun f => if f = "projects/prj1/locations/us-west1/entryGroups/eg1_us-west1"
        then some ⟨true⟩ else none)
      (fun _ => none)
      ⟨"EntryGroup", "prj1", "us-west1", "eg1"⟩).writes =
      [("entry_groups_resource_mapping",
        "projects/prj1/locations/us-west1/entryGroups/eg1",
        "projects/prj1/locations/us-west1/entryGroups/eg1_us-west1")] := by
  exact (claim_C2
    (fun f => if f = "projects/prj1/locations/us-west1/entryGroups/eg1_us-west1"
      then some ⟨true⟩ else none)
    (fun _ => none) "prj1" "us-west1" "eg1" "EntryGroup" (Or.inl rfl)).1

/-! ## TransferResources worker outcome mapping (C4) -/

/-- C4: for a Transfer task with a known resource type, the HTTP
outcome is exactly determined by the upstream transfer call's result:
success maps to 200 "processed", `PermissionDenied` to 200 "not found",
`InvalidArgument` to 200 "already transferred", and any other error to
status 500. -/
theorem claim_C4 (transferEG transferTT : String → TransferCallResult)
    (pid loc name rt : String)
    (h : rt = "EntryGroup" ∨ rt = "TagTemplate") :
    let fqn :=
      if rt = "EntryGroup" then EntryGroup.get_old_fqn pid loc name
      else TagTemplate.get_old_fqn pid loc name
    let result := if rt = "EntryGroup" then transferEG fqn else transferTT fqn
    let run := transfer_resources_handle transferEG transferTT
      ⟨rt, pid, loc, name⟩
    (result = .success → run = .ok ⟨"Task processed", 200⟩) ∧
    (result = .permissionDenied →
      run = .ok ⟨"Resource " ++ fqn ++ " not found", 200⟩) ∧
    (result = .invalidArgument →
      run = .ok ⟨"Resource " ++ fqn ++ " already transferred", 200⟩) ∧
    (∀ d, result = .otherError d →
      run = .ok ⟨"Error occurred " ++ d, 500⟩) := by
  rcases h with rfl | rfl
  · refine ⟨?_, ?_, ?_, ?_⟩ <;>
      first
      | (intro hr
         simp [transfer_resources_handle, transfer_outcome] at hr ⊢
         rw [hr])
      | (intro d hr
         simp [transfer_resources_handle, transfer_outcome] at hr ⊢
         rw [hr])
  · refine ⟨?_, ?_, ?_, ?_⟩ <;>
      first
      | (intro hr
         simp [transfer_resources_handle, transfer_outcome] at hr ⊢
         rw [hr])
      | (intro d hr
         simp [transfer_resources_handle, transfer_outcome] at hr ⊢
         rw [hr])

/-- C4 witness: Scenario E — a transfer call answering
`InvalidArgument` yields HTTP 200 with an "already transferred" body. -/
theorem claim_C4_witness :
    transfer_resources_handle (fun _ => .invalidArgument)
        (fun _ => .success) ⟨"EntryGroup", "p", "l", "n"⟩ =
      .ok ⟨"Resource projects/p/locations/l/entryGroups/n already transferred",
        200⟩ := by
  have h := claim_C4 (fun _ => .invalidArgument) (fun _ => .success)
    "p" "l" "n" "EntryGroup" (Or.inl rfl)
  exact h.2.2.1 rfl

/-! ## CleanupLegacy worker gate (C5) -/

/-- C5 (code bug): the claim — and the specification — say a cleanup
task whose legacy resource has its transferred flag set issues a forced
delete.  For entry groups the source instead raises an uncaught
`TypeError`: `clean_up/handler.py` calls
`delete_entry_group(project_id, location, resource_name, True)` while
`DatacatalogApiAdapter.delete_entry_group` accepts only
`(project, location, name)`, so no delete is issued and no HTTP 200 is
returned (the `except PermissionDenied` does not catch `TypeError`).
The not-transferred gate still short-circuits before the broken call,
and the tag-template path — whose adapter method does take `force` —
behaves exactly as claimed.  This theorem evaluates the worker at the
failing input and at the two neighbouring, well-behaved inputs. -/
theorem claim_C5 :
    clean_up_handle (.found true) .deleted ⟨"EntryGroup", "p", "l", "n"⟩ =
      .error (.typeError
        "delete_entry_group() takes 4 positional arguments but 5 were given")
      ∧
    clean_up_handle (.found false) .deleted ⟨"EntryGroup", "p", "l", "n"⟩ =
      .ok ⟨false,
        ⟨"Entry group projects/p/locations/l/entryGroups/n not transferred",
          200⟩⟩ ∧
    clean_up_handle (.found true) .deleted ⟨"TagTemplate", "p", "l", "n"⟩ =
      .ok ⟨true, ⟨"Task processed", 200⟩⟩ :=
  ⟨rfl, rfl, rfl⟩

/-! ## Warehouse writer retry loop (C10) -/

theorem write_to_table_loop_spec (insert : Nat → InsertOutcome) :
    ∀ retries attempt,
      (write_to_table_loop insert attempt retries = .dataRetrievalError ↔
        ∀ j < retries, insert (attempt + j) = .notFound) ∧
      (∀ i errs, i < retries → insert (attempt + i) = .ok errs →
        (∀ j < i, insert (attempt + j) = .notFound) →
        write_to_table_loop insert attempt retries = .returned errs) ∧
      (∀ i d, i < retries → insert (attempt + i) = .raised d →
        (∀ j < i, insert (attempt + j) = .notFound) →
        write_to_table_loop insert attempt retries = .executionError d) := by
  intro retries
  induction retries with
  | zero =>
    intro attempt
    refine ⟨by simp [write_to_table_loop], ?_, ?_⟩
    · intro i errs hi
      exact absurd hi (by omega)
    · intro i d hi
      exact absurd hi (by omega)
  | succ r ih =>
    intro attempt
    rcases hfirst : insert attempt with errs0 | _ | d0
    · -- first attempt returns a row-error list: the loop returns
      refine ⟨?_, ?_, ?_⟩
      · constructor
        · intro h
          simp [write_to_table_loop, hfirst] at h
        · intro h
          have h0 := h 0 (by omega)
          rw [Nat.add_zero, hfirst] at h0
          exact absurd h0 (by simp)
      · intro i errs hi hins hprev
        rcases Nat.eq_zero_or_pos i with rfl | hpos
        · rw [Nat.add_zero, hfirst] at hins
          simp only [InsertOutcome.ok.injEq] at hins
          subst hins
          simp [write_to_table_loop, hfirst]
        · have h0 := hprev 0 hpos
          rw [Nat.add_zero, hfirst] at h0
          exact absurd h0 (by simp)
      · intro i d hi hins hprev
        rcases Nat.eq_zero_or_pos i with rfl | hpos
        · rw [Nat.add_zero, hfirst] at hins
          exact absurd hins (by simp)
        · have h0 := hprev 0 hpos
          rw [Nat.add_zero, hfirst] at h0
          exact absurd h0 (by simp)
    · -- first attempt raises NotFound: one retry is consumed
      have hstep : write_to_table_loop insert attempt (r + 1) =
          write_to_table_loop insert (attempt + 1) r := by
        simp [write_to_table_loop, hfirst]
      obtain ⟨ih1, ih2, ih3⟩ := ih (attempt + 1)
      refine ⟨?_, ?_, ?_⟩
      · rw [hstep, ih1]
        constructor
        · intro h j hj
          rcases Nat.eq_zero_or_pos j with rfl | hjpos
          · simpa using hfirst
          · have := h (j - 1) (by omega)
            have harith : attempt + 1 + (j - 1) = attempt + j := by omega
            rwa [harith] at this
        · intro h j hj
          have := h (j + 1) (by omega)
          have harith : attempt + (j + 1) = attempt + 1 + j := by omega
          rwa [harith] at this
      · intro i errs hi hins hprev
        rcases Nat.eq_zero_or_pos i with rfl | hpos
        · rw [Nat.add_zero, hfirst] at hins
          exact absurd hins (by simp)
        · rw [hstep]
          refine ih2 (i - 1) errs (by omega) ?_ ?_
          · have harith : attempt + 1 + (i - 1) = attempt + i := by omega
            rwa [harith]
          · intro j hj
            have := hprev (j + 1) (by omega)
            have harith : attempt + (j + 1) = attempt + 1 + j := by omega
            rwa [harith] at this
      · intro i d hi hins hprev
        rcases Nat.eq_zero_or_pos i with rfl | hpos
        · rw [Nat.add_zero, hfirst] at hins
          exact absurd hins (by simp)
        · rw [hstep]
          refine ih3 (i - 1) d (by omega) ?_ ?_
          · have harith : attempt + 1 + (i - 1) = attempt + i := by omega
            rwa [harith]
          · intro j hj
            have := hprev (j + 1) (by omega)
            have harith : attempt + (j + 1) = attempt + 1 + j := by omega
            rwa [harith] at this
    · -- first attempt raises a non-NotFound error: it propagates at once
      refine ⟨?_, ?_, ?_⟩
      · constructor
        · intro h
          simp [write_to_table_loop, hfirst] at h
        · intro h
          have h0 := h 0 (by omega)
          rw [Nat.add_zero, hfirst] at h0
          exact absurd h0 (by simp)
      · intro i errs hi hins hprev
        rcases Nat.eq_zero_or_pos i with rfl | hpos
        · rw [Nat.add_zero, hfirst] at hins
          exact absurd hins (by simp)
        · have h0 := hprev 0 hpos
          rw [Nat.add_zero, hfirst] at h0
          exact absurd h0 (by simp)
      · intro i d hi hins hprev
        rcases Nat.eq_zero_or_pos i with rfl | hpos
        · rw [Nat.add_zero, hfirst] at hins
          simp only [InsertOutcome.raised.injEq] at hins
          subst hins
          simp [write_to_table_loop, hfirst]
        · have h0 := hprev 0 hpos
          rw [Nat.add_zero, hfirst] at h0
          exact absurd h0 (by simp)

/-- C10 counterexample: the claim says the only failing outcome of
`write_to_table` is the table-not-found path raised after exhausting
the retry budget.  An `insert_rows` attempt raising any non-`NotFound`
error (here a 403) escapes the `except NotFound` clause immediately and
propagates as the shield's `BigQueryExecutionError` — a failing outcome
distinct from the table-not-found raise, reached without consuming the
budget. -/
theorem claim_C10_counterexample :
    write_to_table (fun _ => .raised "403 Forbidden") 5 =
      .executionError "403 Forbidden" ∧
    WriteResult.executionError "403 Forbidden" ≠
      WriteResult.dataRetrievalError ∧
    ∀ errs, WriteResult.executionError "403 Forbidden" ≠
      WriteResult.returned errs :=
  ⟨rfl, fun h => WriteResult.noConfusion h,
    fun _ h => WriteResult.noConfusion h⟩

/-- C10 (amended): when some `insert_rows` attempt returns a (possibly
non-empty) list of per-row errors without raising, `write_to_table`
returns normally carrying those errors (they are only logged), so the
caller observes success.  The retry budget governs only the `NotFound`
path: the table-not-found error is raised exactly when every attempt
within the budget raises `NotFound`, while any other exception from an
attempt propagates immediately (as `BigQueryExecutionError` via
`google_api_exception_shield`), so the table-not-found raise is not the
only failing outcome. -/
theorem claim_C10 (insert : Nat → InsertOutcome) (retry_count : Nat) :
    (∀ i errs, i < retry_count → insert i = .ok errs →
      (∀ j < i, insert j = .notFound) →
      write_to_table insert retry_count = .returned errs) ∧
    (write_to_table insert retry_count = .dataRetrievalError ↔
      ∀ j < retry_count, insert j = .notFound) ∧
    (∀ i d, i < retry_count → insert i = .raised d →
      (∀ j < i, insert j = .notFound) →
      write_to_table insert retry_count = .executionError d) := by
  obtain ⟨h1, h2, h3⟩ := write_to_table_loop_spec insert retry_count 0
  refine ⟨?_, ?_, ?_⟩
  · intro i errs hi hins hprev
    exact h2 i errs hi (by simpa using hins) (fun j hj => by
      simpa using hprev j hj)
  · constructor
    · intro h j hj
      simpa using h1.mp h j hj
    · intro h
      exact h1.mpr fun j hj => by simpa using h j hj
  · intro i d hi hins hprev
    exact h3 i d hi (by simpa using hins) (fun j hj => by
      simpa using hprev j hj)

/-- C10 witness: with the default budget of 5 retries, a first attempt
returning a non-empty per-row error list makes `write_to_table` return
normally with those errors. -/
theorem claim_C10_witness :
    write_to_table
        (fun i => if i = 0 then .ok ["row insert error"] else .notFound) 5 =
      .returned ["row insert error"] := by
  have h := claim_C10
    (fun i => if i = 0 then .ok ["row insert error"] else .notFound) 5
  exact h.1 0 ["row insert error"] (by omega) (by simp)
    (fun j hj => absurd hj (by omega))

/-! ## EnumerateResources worker (C7) -/

/-- C7: the enumeration worker writes exactly the page's matching rows
to the stage's snapshot table, and enqueues exactly one successor task
if and only if the search response carries a (non-empty) continuation
token; the successor payload is the incoming payload with only
`next_page_token` replaced by the returned token. -/
theorem claim_C7 {α : Type}
    (searchEG : String → Bool → Option String → List α × String)
    (searchTT : String → Option Bool → Bool → Option String → List α × String)
    (task : FetchTaskData)
    (h : task.resource_type = "entry_group" ∨
      task.resource_type = "tag_template") :
    let page :=
      if task.resource_type = "entry_group" then
        searchEG task.scope task.is_transferred task.next_page_token
      else searchTT task.scope task.is_public task.is_transferred
        task.next_page_token
    let out := fetch_resources_handle searchEG searchTT task
    (out.1.writes.foldr (fun w acc => w.2 ++ acc) [] = page.1) ∧
    (∀ w ∈ out.1.writes, w.1 =
      if task.resource_type = "entry_group" then "entry_groups_table"
      else "tag_templates_table") ∧
    (page.2 ≠ "" →
      out.1.enqueued = [{ task with next_page_token := some page.2 }]) ∧
    (page.2 = "" → out.1.enqueued = []) ∧
    out.2 = ⟨"Task processed", 200⟩ := by
  have hne : task.resource_type = "entry_group" ∨
      (task.resource_type = "tag_template" ∧
        task.resource_type ≠ "entry_group") := by
    rcases h with h | h
    · exact Or.inl h
    · refine Or.inr ⟨h, ?_⟩
      rw [h]; decide
  rcases hne with hrt | ⟨hrt, hrt2⟩
  · rcases hpage : searchEG task.scope task.is_transferred
        task.next_page_token with ⟨rows, token⟩
    refine ⟨?_, ?_, ?_, ?_, ?_⟩ <;>
      simp [fetch_resources_handle, hrt, hpage] <;>
      rcases rows with _ | ⟨r, rs⟩ <;>
      simp [List.isEmpty]
  · rcases hpage : searchTT task.scope task.is_public task.is_transferred
        task.next_page_token with ⟨rows, token⟩
    refine ⟨?_, ?_, ?_, ?_, ?_⟩ <;>
      simp [fetch_resources_handle, hrt, hrt2, hpage] <;>
      rcases rows with _ | ⟨r, rs⟩ <;>
      simp [List.isEmpty]

/-- C7 witness: Scenario B — a page with two results and continuation
token `"T"` yields exactly those two rows written and one successor task
whose payload differs from the input only in `next_page_token = "T"`. -/
theorem claim_C7_witness :
    (fetch_resources_handle (α := Nat) (fun _ _ _ => ([1, 2], "T"))
        (fun _ _ _ _ => ([], ""))
        ⟨"prj1", "entry_group", none, false, 0, none⟩).1.enqueued =
      [⟨"prj1", "entry_group", some "T", false, 0, none⟩] ∧
    ((fetch_resources_handle (α := Nat) (fun _ _ _ => ([1, 2], "T"))
        (fun _ _ _ _ => ([], ""))
        ⟨"prj1", "entry_group", none, false, 0, none⟩).1.writes.foldr
      (fun w acc => w.2 ++ acc) [] = [1, 2]) := by
  have h := claim_C7 (α := Nat) (fun _ _ _ => ([1, 2], "T"))
    (fun _ _ _ _ => ([], ""))
    ⟨"prj1", "entry_group", none, false, 0, none⟩ (Or.inl rfl)
  exact ⟨h.2.2.1 (by decide), h.1⟩

/-! ## DiscoverProjects deduplication (C6) -/

theorem mergeStep_not_found (acc : List Project) (p : Project)
    (hA : ¬ acc.any (fun q => q.project_id = p.project_id) = true) :
    mergeStep acc p = acc ++ [p] := by
  simp only [mergeStep, if_neg hA]

theorem mergeStep_found (acc : List Project) (p : Project)
    (hA : acc.any (fun q => q.project_id = p.project_id) = true) :
    mergeStep acc p = acc.map (fun q =>
      if q.project_id = p.project_id then
        { q with
          dataplex_api_enabled :=
            p.dataplex_api_enabled || q.dataplex_api_enabled
          data_catalog_api_enabled :=
            p.data_catalog_api_enabled || q.data_catalog_api_enabled }
      else q) := by
  simp only [mergeStep, if_pos hA]

theorem merge_projects_append (l : List Project) (p : Project) :
    merge_projects (l ++ [p]) = mergeStep (merge_projects l) p := by
  simp [merge_projects, List.foldl_append]

/-- C6: `merge_projects` returns one record per distinct `projectId`
(the output ids are duplicate-free and are exactly the input ids), and
each output record's `data_catalog_api_enabled` and
`dataplex_api_enabled` equal the OR of the corresponding flags over all
input records sharing that `projectId`. -/
theorem claim_C6 (ps : List Project) :
    ((merge_projects ps).map (fun q => q.project_id)).Nodup ∧
    (∀ pid, pid ∈ (merge_projects ps).map (fun q => q.project_id) ↔
      pid ∈ ps.map (fun q => q.project_id)) ∧
    (∀ q ∈ merge_projects ps,
      q.data_catalog_api_enabled =
        (ps.filter (fun p => p.project_id = q.project_id)).any
          (fun p => p.data_catalog_api_enabled) ∧
      q.dataplex_api_enabled =
        (ps.filter (fun p => p.project_id = q.project_id)).any
          (fun p => p.dataplex_api_enabled)) := by
  induction ps using List.reverseRecOn with
  | nil => simp [merge_projects]
  | append_singleton l p ih =>
    obtain ⟨ih1, ih2, ih3⟩ := ih
    rw [merge_projects_append]
    by_cases hA : (merge_projects l).any
        (fun q => q.project_id = p.project_id) = true
    · -- repeated project id: flags are merged into the stored record
      have hids : (mergeStep (merge_projects l) p).map
          (fun q => q.project_id) =
          (merge_projects l).map (fun q => q.project_id) := by
        rw [mergeStep_found _ _ hA, List.map_map]
        refine List.map_congr_left ?_
        intro q _
        by_cases hq : q.project_id = p.project_id <;> simp [hq]
      have hpid_mem : p.project_id ∈ l.map (fun q => q.project_id) := by
        rw [List.any_eq_true] at hA
        obtain ⟨q, hq, hq2⟩ := hA
        have : q.project_id ∈ (merge_projects l).map
            (fun r => r.project_id) := List.mem_map_of_mem _ hq
        rw [ih2] at this
        simpa [of_decide_eq_true hq2] using this
      refine ⟨?_, ?_, ?_⟩
      · rw [hids]; exact ih1
      · intro pid
        rw [hids]
        simp only [List.map_append, List.mem_append, List.map_cons,
          List.map_nil, List.mem_singleton]
        constructor
        · intro h; exact Or.inl ((ih2 pid).mp h)
        · rintro (h | rfl)
          · exact (ih2 pid).mpr h
          · exact (ih2 _).mpr hpid_mem
      · intro q' hq'
        rw [mergeStep_found _ _ hA] at hq'
        rw [List.mem_map] at hq'
        obtain ⟨q, hq, rfl⟩ := hq'
        obtain ⟨ihdc, ihdp⟩ := ih3 q hq
        by_cases hqp : q.project_id = p.project_id
        · simp only [if_pos hqp]
          constructor
          · simp [List.filter_append, hqp, ihdc, Bool.or_comm]
          · simp [List.filter_append, hqp, ihdp, Bool.or_comm]
        · simp only [if_neg hqp]
          have hne : ¬ p.project_id = q.project_id :=
            fun h => hqp h.symm
          constructor
          · simp [List.filter_append, hne, ihdc]
          · simp [List.filter_append, hne, ihdp]
    · -- new project id: the record is appended as-is
      have hnotin : p.project_id ∉ l.map (fun q => q.project_id) := by
        intro hmem
        rw [← ih2] at hmem
        rw [List.mem_map] at hmem
        obtain ⟨q, hq, hq2⟩ := hmem
        exact hA (List.any_eq_true.mpr ⟨q, hq, by simp [hq2]⟩)
      rw [mergeStep_not_found _ _ hA]
      refine ⟨?_, ?_, ?_⟩
      · rw [List.map_append]
        refine List.Nodup.append ih1 (by simp) ?_
        intro a ha hb
        simp only [List.map_cons, List.map_nil, List.mem_singleton] at hb
        subst hb
        exact hnotin ((ih2 _).mp ha)
      · intro pid
        simp only [List.map_append, List.mem_append, List.map_cons,
          List.map_nil, List.mem_singleton]
        constructor
        · rintro (h | rfl)
          · exact Or.inl ((ih2 pid).mp h)
          · exact Or.inr rfl
        · rintro (h | rfl)
          · exact Or.inl ((ih2 pid).mpr h)
          · exact Or.inr rfl
      · intro q' hq'
        rw [List.mem_append] at hq'
        rcases hq' with hq' | hq'
        · obtain ⟨ihdc, ihdp⟩ := ih3 q' hq'
          have hne : ¬ p.project_id = q'.project_id := by
            intro h
            exact hA (List.any_eq_true.mpr ⟨q', hq', by simp [h.symm]⟩)
          constructor
          · simp [List.filter_append, hne, ihdc]
          · simp [List.filter_append, hne, ihdp]
        · simp only [List.mem_singleton] at hq'
          subst hq'
          have hfilter : l.filter (fun r => r.project_id = q'.project_id)
              = [] := by
            rw [List.filter_eq_nil_iff]
            intro r hr
            simp only [decide_eq_true_eq]
            intro h
            exact hnotin (h ▸ List.mem_map_of_mem _ hr)
          constructor
          · simp [List.filter_append, hfilter]
          · simp [List.filter_append, hfilter]

/-! ## Region queue preparation (C8) -/

theorem string_suffix_inj (base : String) {l1 l2 : String}
    (h : base ++ "-" ++ l1 = base ++ "-" ++ l2) : l1 = l2 := by
  have hd := congrArg String.data h
  simp only [String.data_append] at hd
  have h2 := List.append_cancel_left hd
  cases l1; cases l2
  exact congrArg String.mk (by simpa using h2)

theorem prepare_append (base : String) (quota qc : Nat) (st : QueueState)
    (l : List String) (x : String) :
    prepare_queues_for_locations base quota qc st (l ++ [x]) =
      ((prepareStep base quota qc
          (prepare_queues_for_locations base quota qc st l).1 x).1,
        (prepare_queues_for_locations base quota qc st l).2 ++
          [(prepareStep base quota qc
            (prepare_queues_for_locations base quota qc st l).1 x).2]) := by
  simp [prepare_queues_for_locations, List.foldl_append]

theorem lookupQueue_append_ne (st : QueueState) (n : String) (r : Nat)
    (name : String) (h : ¬ n = name) :
    lookupQueue (st ++ [(n, r)]) name = lookupQueue st name := by
  unfold lookupQueue
  rw [List.find?_append]
  rcases hf : st.find? (fun e => e.1 = name) with _ | e
  · rw [hf]; simp [List.find?, h]
  · rw [hf]; rfl

theorem lookupQueue_append_self (st : QueueState) (r : Nat) (name : String)
    (h : lookupQueue st name = none) :
    lookupQueue (st ++ [(name, r)]) name = some r := by
  unfold lookupQueue at h ⊢
  rw [List.find?_append]
  rcases hf : st.find? (fun e => e.1 = name) with _ | e
  · rw [hf]; simp [List.find?]
  · rw [hf] at h; simp at h

theorem prepare_state_lookup (base : String) (quota qc : Nat)
    (st : QueueState) (l : List String) (name : String)
    (h : ∀ loc ∈ l, ¬ base ++ "-" ++ loc = name) :
    lookupQueue (prepare_queues_for_locations base quota qc st l).1 name =
      lookupQueue st name := by
  induction l using List.reverseRecOn with
  | nil => rfl
  | append_singleton l x ih =>
    rw [prepare_append]
    have hx : ¬ base ++ "-" ++ x = name := h x (by simp)
    have ihl := ih (fun loc hloc => h loc (by simp [hloc]))
    unfold prepareStep
    by_cases he : (lookupQueue
        (prepare_queues_for_locations base quota qc st l).1
        (base ++ "-" ++ x)).isSome
    · simp only [he, if_pos]
      exact ihl
    · simp only [Bool.not_eq_true] at he
      simp only [he, Bool.false_eq_true, if_neg, not_false_iff]
      rw [lookupQueue_append_ne _ _ _ _ hx]
      exact ihl

theorem prepareStep_lookup_ne (base : String) (quota qc : Nat)
    (st : QueueState) (x name : String)
    (h : ¬ base ++ "-" ++ x = name) :
    lookupQueue (prepareStep base quota qc st x).1 name =
      lookupQueue st name := by
  unfold prepareStep
  by_cases he : (lookupQueue st (base ++ "-" ++ x)).isSome
  · simp only [he, if_pos]
  · simp only [Bool.not_eq_true] at he
    simp only [he, Bool.false_eq_true, if_neg, not_false_iff]
    exact lookupQueue_append_ne _ _ _ _ h

set_option maxRecDepth 10000 in
/-- C8 counterexample: the claim says a fresh subqueue is created with
max dispatch rate `ceil(quota * percent / 100)`.  The source evaluates
that expression in Python's binary64 floating point, where
`100 * (7 / 100)` rounds to a double slightly above `7`, so
`math.ceil` yields `8`, while the exact ceiling of `100·7/100` is `7`. -/
theorem claim_C8_counterexample :
    (prepare_queues_for_locations "q" 100 7 [] ["us-east1"]).2 =
      [.createQueue "q-us-east1" 8] ∧
    ⌈(100 * 7 : ℚ) / 100⌉ = 7 ∧ (8 : Nat) ≠ 7 := by
  refine ⟨by decide, by norm_num, by decide⟩

/-- C8 (amended): for every region in a duplicate-free input to
`prepare_queues_for_locations`, if the subqueue `<base>-<region>`
already exists it is purged and its rate limit is left unchanged;
otherwise it is created with max dispatch rate equal to
`ceil(quota * (percent / 100))` evaluated in binary64 floating point
(`queue_max_rps`), which can exceed the exact rational ceiling by one;
exactly one queue action is issued per region. -/
theorem claim_C8 (base : String) (quota qc : Nat) (st : QueueState)
    (locs : List String) (hnd : locs.Nodup) :
    (prepare_queues_for_locations base quota qc st locs).2.length =
      locs.length ∧
    ∀ loc ∈ locs,
      ((lookupQueue st (base ++ "-" ++ loc)).isSome = true →
        QueueAction.purgeQueue (base ++ "-" ++ loc) ∈
          (prepare_queues_for_locations base quota qc st locs).2 ∧
        lookupQueue (prepare_queues_for_locations base quota qc st locs).1
          (base ++ "-" ++ loc) = lookupQueue st (base ++ "-" ++ loc)) ∧
      ((lookupQueue st (base ++ "-" ++ loc)).isSome = false →
        QueueAction.createQueue (base ++ "-" ++ loc)
          (queue_max_rps quota qc) ∈
          (prepare_queues_for_locations base quota qc st locs).2 ∧
        lookupQueue (prepare_queues_for_locations base quota qc st locs).1
          (base ++ "-" ++ loc) = some (queue_max_rps quota qc)) := by
  induction locs using List.reverseRecOn with
  | nil => exact ⟨rfl, by simp⟩
  | append_singleton l x ih =>
    rw [List.nodup_append] at hnd
    obtain ⟨hl, -, hdisj⟩ := hnd
    have hx : x ∉ l := fun hmem => hdisj hmem (by simp)
    obtain ⟨ihlen, ihmem⟩ := ih hl
    rw [prepare_append]
    constructor
    · simpa using ihlen
    · intro loc hloc
      rw [List.mem_append] at hloc
      rcases hloc with hloc | hloc
      · have hne : ¬ base ++ "-" ++ x = base ++ "-" ++ loc := by
          intro h
          exact hx (string_suffix_inj base h ▸ hloc)
        obtain ⟨ih1, ih2⟩ := ihmem loc hloc
        constructor
        · intro hsome
          obtain ⟨ha, hlook⟩ := ih1 hsome
          refine ⟨List.mem_append_left _ ha, ?_⟩
          rw [prepareStep_lookup_ne _ _ _ _ _ _ hne]
          exact hlook
        · intro hnone
          obtain ⟨ha, hlook⟩ := ih2 hnone
          refine ⟨List.mem_append_left _ ha, ?_⟩
          rw [prepareStep_lookup_ne _ _ _ _ _ _ hne]
          exact hlook
      · simp only [List.mem_singleton] at hloc
        subst hloc
        have hframe := prepare_state_lookup base quota qc st l
          (base ++ "-" ++ loc) (fun loc' hloc' h => by
            exact hx (string_suffix_inj base h ▸ hloc'))
        constructor
        · intro hsome
          have hsome2 : (lookupQueue
              (prepare_queues_for_locations base quota qc st l).1
              (base ++ "-" ++ loc)).isSome = true := by
            rw [hframe]; exact hsome
          unfold prepareStep
          simp only [hsome2, if_pos]
          exact ⟨List.mem_append_right _ (by simp), hframe⟩
        · intro hnone
          have hnone2 : lookupQueue
              (prepare_queues_for_locations base quota qc st l).1
              (base ++ "-" ++ loc) = none := by
            rw [hframe]
            exact Option.not_isSome_iff_eq_none.mp (by simp [hnone])
          unfold prepareStep
          simp only [hnone2, Option.isSome_none, Bool.false_eq_true,
            if_neg, not_false_iff]
          refine ⟨List.mem_append_right _ (by simp), ?_⟩
          exact lookupQueue_append_self _ _ _ hnone2

/-- C8 witness: with base queue `q`, quota 100 at 7 percent, an
existing subqueue `q-a` holding rate 3 and a fresh region `b`: the run
issues two actions, purges `q-a` leaving its rate at 3, and creates
`q-b` with the binary64 rate `queue_max_rps 100 7`. -/
theorem claim_C8_witness :
    (prepare_queues_for_locations "q" 100 7 [("q-a", 3)] ["a", "b"]).2.length
      = 2 ∧
    QueueAction.purgeQueue "q-a" ∈
      (prepare_queues_for_locations "q" 100 7 [("q-a", 3)] ["a", "b"]).2 ∧
    lookupQueue
      (prepare_queues_for_locations "q" 100 7 [("q-a", 3)] ["a", "b"]).1
      "q-a" = some 3 ∧
    QueueAction.createQueue "q-b" (queue_max_rps 100 7) ∈
      (prepare_queues_for_locations "q" 100 7 [("q-a", 3)] ["a", "b"]).2 ∧
    lookupQueue
      (prepare_queues_for_locations "q" 100 7 [("q-a", 3)] ["a", "b"]).1
      "q-b" = some (queue_max_rps 100 7) := by
  obtain ⟨hlen, hmem⟩ := claim_C8 "q" 100 7 [("q-a", 3)] ["a", "b"]
    (by decide)
  obtain ⟨ha1, -⟩ := hmem "a" (by decide)
  obtain ⟨-, hb2⟩ := hmem "b" (by decide)
  obtain ⟨hamem, halook⟩ := ha1 (by decide)
  obtain ⟨hbmem, hblook⟩ := hb2 (by decide)
  exact ⟨hlen, hamem, halook.trans (by decide), hbmem, hblook⟩

end CatalogTransfer
